import Mathlib

/-!
# Verification of the tracer effect lifecycle (src/tracer.rs)

Shallow embedding of the tracer module of bevy-char-anim: the spawn-time
component hook that builds the beam / light / particle-burst children of a
tracer entity, and the per-tick expiry sweep that despawns entities whose
(spawned_at + lifetime) deadline has passed.

Durations (std::time::Duration) are modelled as natural numbers of
nanoseconds.  The entity store is modelled as a list of entity records with
an optional parent pointer (the ChildOf relation created by with_children)
and an optional DespawnAfter component; despawn_recursive removes an entity
together with all of its owned descendants, and commands are deferred, so a
sweep pass acts on a snapshot of the store.

Vector and quaternion arithmetic (glam f32) is modelled over the exact
reals.
-/

/-! ## Durations -/

/-- Constant TRACER_DURATION_MILLIS from the source. -/
def TRACER_DURATION_MILLIS : ℕ := 100

/-- Duration::from_millis, in nanoseconds. -/
def durationFromMillis (ms : ℕ) : ℕ := ms * 1000000

/-- Duration::as_secs_f32, as an exact real number of seconds. -/
noncomputable def durationAsSecsF32 (nanos : ℕ) : ℝ := (nanos : ℝ) / 1000000000

/-! ## The entity store and the expiry sweep -/

/-- Component DespawnAfter from the source. -/
structure DespawnAfter where
  spawned_at : ℕ
  lifetime : ℕ
deriving DecidableEq

/-- One entity of the store: its id, its optional owner (the ChildOf
relation established by with_children) and its optional DespawnAfter
component. -/
structure EntityRec where
  id : ℕ
  parent : Option ℕ
  despawn_after : Option DespawnAfter
deriving DecidableEq

/-- The entity store: the slice of a Bevy world that despawn_tracers
observes. -/
structure World where
  entities : List EntityRec
deriving DecidableEq

/-- Parent lookup by entity id. -/
def parentOf (w : World) (i : ℕ) : Option ℕ :=
  match w.entities.find? (fun e => e.id == i) with
  | some e => e.parent
  | none => none

/-- Ancestor chain of an entity id, fuelled to stay total. -/
def ancestorsAux (w : World) : ℕ → ℕ → List ℕ
  | 0, _ => []
  | fuel + 1, i =>
    match parentOf w i with
    | some p => p :: ancestorsAux w fuel p
    | none => []

/-- All (transitive) owners of an entity id. -/
def ancestors (w : World) (i : ℕ) : List ℕ := ancestorsAux w w.entities.length i

/-- Entity x is an owned descendant of entity e. -/
def isDescendantOf (w : World) (x e : ℕ) : Bool := (ancestors w x).contains e

/-- Expiry test of despawn_tracers: spawned_at + lifetime < now (strict). -/
def DespawnAfter.expiredAt (d : DespawnAfter) (now : ℕ) : Bool :=
  decide (d.spawned_at + d.lifetime < now)

/-- Expiry test lifted to an entity record. -/
def EntityRec.expiredAt (e : EntityRec) (now : ℕ) : Bool :=
  match e.despawn_after with
  | some d => d.expiredAt now
  | none => false

/-- Entity id x is hit by some despawn_recursive command of the sweep pass
at time now: it is, or descends from, an entity whose deadline has
passed. -/
def removedBySweep (w : World) (now : ℕ) (x : ℕ) : Bool :=
  w.entities.any fun e => e.expiredAt now && (x == e.id || isDescendantOf w x e.id)

/-- One pass of despawn_tracers: every expired marker entity is despawned
recursively; the commands are deferred, so they all act on the same
snapshot of the store. -/
def sweep (w : World) (now : ℕ) : World :=
  ⟨w.entities.filter fun r => !(removedBySweep w now r.id)⟩

/-- A run of sweep passes at the given clock readings. -/
def runSweeps (w : World) (ts : List ℕ) : World := ts.foldl sweep w

/-- An expired entity (other than x itself) owning entity id x. -/
def hasExpiredOwner (w : World) (now : ℕ) (x : ℕ) : Bool :=
  w.entities.any fun e => e.expiredAt now && isDescendantOf w x e.id

/-! ## Basic sweep lemmas -/

theorem mem_sweep_iff {w : World} {now : ℕ} {r : EntityRec} :
    r ∈ (sweep w now).entities ↔ r ∈ w.entities ∧ removedBySweep w now r.id = false := by
  simp [sweep, List.mem_filter]

theorem sweep_subset {w : World} {now : ℕ} {r : EntityRec}
    (h : r ∈ (sweep w now).entities) : r ∈ w.entities :=
  (mem_sweep_iff.mp h).1

theorem removedBySweep_self {w : World} {now : ℕ} {r : EntityRec}
    (hr : r ∈ w.entities) (h : r.expiredAt now = true) :
    removedBySweep w now r.id = true := by
  simp only [removedBySweep, List.any_eq_true]
  exact ⟨r, hr, by simp [h]⟩

theorem not_mem_sweep_of_expired {w : World} {now : ℕ} {r : EntityRec}
    (h : r.expiredAt now = true) : r ∉ (sweep w now).entities := by
  intro hmem
  rcases mem_sweep_iff.mp hmem with ⟨hr, hno⟩
  rw [removedBySweep_self hr h] at hno
  exact Bool.noConfusion hno

theorem not_mem_runSweeps {w : World} {ts : List ℕ} {r : EntityRec}
    (h : r ∉ w.entities) : r ∉ (runSweeps w ts).entities := by
  induction ts generalizing w with
  | nil => exact h
  | cons t rest ih =>
    exact ih (fun hmem => h (sweep_subset hmem))

theorem parentOf_root {w : World} {r : EntityRec}
    (huniq : ∀ e ∈ w.entities, e.id = r.id → e = r) (hroot : r.parent = none) :
    parentOf w r.id = none := by
  unfold parentOf
  cases hfind : w.entities.find? (fun e => e.id == r.id) with
  | none => rfl
  | some e =>
    have he : e = r :=
      huniq e (List.mem_of_find?_eq_some hfind) (by simpa using List.find?_some hfind)
    simp [he, hroot]

theorem isDescendantOf_root {w : World} {r : EntityRec}
    (huniq : ∀ e ∈ w.entities, e.id = r.id → e = r) (hroot : r.parent = none)
    (e : ℕ) : isDescendantOf w r.id e = false := by
  unfold isDescendantOf ancestors
  cases hlen : w.entities.length with
  | zero => rfl
  | succ n =>
    unfold ancestorsAux
    rw [parentOf_root huniq hroot]
    rfl

theorem root_survives_sweep {w : World} {r : EntityRec} {d : DespawnAfter} {t : ℕ}
    (hr : r ∈ w.entities) (hd : r.despawn_after = some d) (hroot : r.parent = none)
    (huniq : ∀ e ∈ w.entities, e.id = r.id → e = r)
    (ht : ¬ d.spawned_at + d.lifetime < t) :
    r ∈ (sweep w t).entities := by
  refine mem_sweep_iff.mpr ⟨hr, ?_⟩
  rcases Bool.eq_false_or_eq_true (removedBySweep w t r.id) with h | h
  swap
  · exact h
  exfalso
  simp only [removedBySweep, List.any_eq_true] at h
  rcases h with ⟨e, he, hp⟩
  simp only [Bool.and_eq_true, Bool.or_eq_true] at hp
  rcases hp with ⟨hexp, hid | hdesc⟩
  · have hid' : r.id = e.id := by simpa using hid
    have heq : e = r := huniq e he hid'.symm
    rw [heq] at hexp
    simp [EntityRec.expiredAt, hd, DespawnAfter.expiredAt] at hexp
    exact ht hexp
  · rw [isDescendantOf_root huniq hroot e.id] at hdesc
    exact Bool.noConfusion hdesc

theorem mem_runSweeps_of_le {r : EntityRec} {d : DespawnAfter}
    (hd : r.despawn_after = some d) (hroot : r.parent = none) :
    ∀ (ts : List ℕ) (w : World), r ∈ w.entities →
      (∀ e ∈ w.entities, e.id = r.id → e = r) →
      (∀ t ∈ ts, t ≤ d.spawned_at + d.lifetime) →
      r ∈ (runSweeps w ts).entities := by
  intro ts
  induction ts with
  | nil => intro w hr _ _; exact hr
  | cons t rest ih =>
    intro w hr huniq hts
    have ht : ¬ d.spawned_at + d.lifetime < t :=
      not_lt.mpr (hts t (List.mem_cons_self t rest))
    exact ih (sweep w t) (root_survives_sweep hr hd hroot huniq ht)
      (fun e he hid => huniq e (sweep_subset he) hid)
      (fun t' ht' => hts t' (List.mem_cons_of_mem t ht'))

theorem not_mem_runSweeps_of_expired {r : EntityRec} {d : DespawnAfter}
    (hd : r.despawn_after = some d) :
    ∀ (ts : List ℕ) (w : World), (∃ t ∈ ts, d.spawned_at + d.lifetime < t) →
      r ∉ (runSweeps w ts).entities := by
  intro ts
  induction ts with
  | nil =>
    intro w h
    rcases h with ⟨t, ht, _⟩
    exact absurd ht (List.not_mem_nil t)
  | cons t rest ih =>
    intro w h
    rcases h with ⟨t', ht', hgt⟩
    rcases List.mem_cons.mp ht' with heq | hmem
    · subst heq
      have hexp : r.expiredAt t' = true := by
        simp [EntityRec.expiredAt, hd, DespawnAfter.expiredAt, hgt]
      show r ∉ (runSweeps (sweep w t') rest).entities
      exact not_mem_runSweeps (not_mem_sweep_of_expired hexp)
    · exact ih (sweep w t) ⟨t', hmem, hgt⟩

/-! ## Claim theorems about the expiry sweep -/

/-- C7: the expiry sweep is idempotent.  Running despawn_tracers a second
time at the same clock reading, after the first pass's deferred removals
have been applied, removes no further entity: the swept world is a fixed
point of the sweep at that clock value. -/
theorem sweep_idempotent (w : World) (now : ℕ) :
    sweep (sweep w now) now = sweep w now := by
  have key : ∀ r ∈ (sweep w now).entities,
      (!(removedBySweep (sweep w now) now r.id)) = true := by
    intro r hr
    rcases Bool.eq_false_or_eq_true (removedBySweep (sweep w now) now r.id) with h | h
    swap
    · simp [h]
    exfalso
    simp only [removedBySweep, List.any_eq_true] at h
    rcases h with ⟨e, he, hp⟩
    simp only [Bool.and_eq_true] at hp
    have h1 := (mem_sweep_iff.mp he).2
    have h2 := removedBySweep_self (sweep_subset he) hp.1
    rw [h1] at h2
    exact Bool.noConfusion h2
  show World.mk ((sweep w now).entities.filter _) = sweep w now
  rw [List.filter_eq_self.mpr key]

/-- Concrete store refuting the untouched-clause of C1: entity 2 carries a
not-yet-expired DespawnAfter but is owned by entity 1 whose deadline has
passed. -/
def cascadeWorld : World :=
  ⟨[⟨1, none, some ⟨0, 5⟩⟩, ⟨2, some 1, some ⟨0, 100⟩⟩]⟩

/-- C1 counterexample: in cascadeWorld at clock 10, entity 2's deadline
0 + 100 has not been strictly passed, yet the sweep removes it, because it
is an owned descendant of the expired entity 1.  So a marker entity whose
deadline has not been passed is not always left untouched. -/
theorem sweep_cascade_counterexample :
    (⟨2, some 1, some ⟨0, 100⟩⟩ : EntityRec) ∈ cascadeWorld.entities
    ∧ DespawnAfter.expiredAt ⟨0, 100⟩ 10 = false
    ∧ ∀ e ∈ (sweep cascadeWorld 10).entities, e.id ≠ 2 := by decide

/-- C1 (amended): the sweep removes an ExpiryMarker entity and all of its
owned descendants whenever the clock strictly exceeds spawned_at +
lifetime; a marker entity whose deadline has not been strictly passed is
left untouched provided no other record shares its id and no expired
entity owns it. -/
theorem sweep_removes_iff_expired (w : World) (now : ℕ) (r : EntityRec)
    (d : DespawnAfter) (hr : r ∈ w.entities) (hd : r.despawn_after = some d) :
    (d.expiredAt now = true →
      (∀ e ∈ (sweep w now).entities, e.id ≠ r.id)
      ∧ ∀ x ∈ w.entities, isDescendantOf w x.id r.id = true →
          x ∉ (sweep w now).entities)
    ∧ (d.expiredAt now = false →
      (∀ e ∈ w.entities, e.id = r.id → e = r) →
      hasExpiredOwner w now r.id = false →
      r ∈ (sweep w now).entities) := by
  constructor
  · intro hexp
    have hrexp : r.expiredAt now = true := by
      simp [EntityRec.expiredAt, hd, hexp]
    constructor
    · intro e he heq
      rcases mem_sweep_iff.mp he with ⟨_, hno⟩
      have : removedBySweep w now e.id = true := by
        simp only [removedBySweep, List.any_eq_true]
        exact ⟨r, hr, by simp [hrexp, heq]⟩
      rw [hno] at this
      exact Bool.noConfusion this
    · intro x _ hdesc hmem
      rcases mem_sweep_iff.mp hmem with ⟨_, hno⟩
      have : removedBySweep w now x.id = true := by
        simp only [removedBySweep, List.any_eq_true]
        exact ⟨r, hr, by simp [hrexp, hdesc]⟩
      rw [hno] at this
      exact Bool.noConfusion this
  · intro hexp huniq hown
    refine mem_sweep_iff.mpr ⟨hr, ?_⟩
    rcases Bool.eq_false_or_eq_true (removedBySweep w now r.id) with h | h
    swap
    · exact h
    exfalso
    simp only [removedBySweep, List.any_eq_true] at h
    rcases h with ⟨e, he, hp⟩
    simp only [Bool.and_eq_true, Bool.or_eq_true] at hp
    rcases hp with ⟨hexpe, hid | hdesc⟩
    · have hid' : r.id = e.id := by simpa using hid
      have heq : e = r := huniq e he hid'.symm
      rw [heq] at hexpe
      have hde : d.expiredAt now = true := by
        simpa [EntityRec.expiredAt, hd] using hexpe
      rw [hde] at hexp
      exact Bool.noConfusion hexp
    · have : hasExpiredOwner w now r.id = true := by
        simp only [hasExpiredOwner, List.any_eq_true]
        exact ⟨e, he, by simp [hexpe, hdesc]⟩
      rw [hown] at this
      exact Bool.noConfusion this

/-- Concrete store for the C1 witness: expired root entity 1 owning the
markerless child entity 2. -/
def expiredWorld : World :=
  ⟨[⟨1, none, some ⟨0, 5⟩⟩, ⟨2, some 1, none⟩]⟩

/-- C1 witness: in expiredWorld at clock 10, entity 1's deadline 0 + 5 is
strictly passed and the sweep removes it together with its owned child
entity 2. -/
theorem sweep_removes_iff_expired_witness :
    ((⟨1, none, some ⟨0, 5⟩⟩ : EntityRec) ∈ expiredWorld.entities
      ∧ DespawnAfter.expiredAt ⟨0, 5⟩ 10 = true)
    ∧ (∀ e ∈ (sweep expiredWorld 10).entities, e.id ≠ 1)
    ∧ ((⟨2, some 1, none⟩ : EntityRec) ∉ (sweep expiredWorld 10).entities) :=
  ⟨⟨by decide, by decide⟩,
   ((sweep_removes_iff_expired expiredWorld 10 ⟨1, none, some ⟨0, 5⟩⟩ ⟨0, 5⟩
       (by decide) rfl).1 (by decide)).1,
   ((sweep_removes_iff_expired expiredWorld 10 ⟨1, none, some ⟨0, 5⟩⟩ ⟨0, 5⟩
       (by decide) rfl).1 (by decide)).2 ⟨2, some 1, none⟩ (by decide) (by decide)⟩

/-- Concrete store refuting C8 as stated: a tracer entity 2 with marker
spawned_at 8, lifetime 100000000 ns, owned by entity 1 whose deadline
already passed. -/
def nestedTracerWorld : World :=
  ⟨[⟨1, none, some ⟨0, 5⟩⟩, ⟨2, some 1, some ⟨8, 100000000⟩⟩]⟩

/-- C8 counterexample: the tracer entity 2 was spawned at clock 8 with the
100 ms lifetime; the tick at clock 10 lies inside its liveness window
(10 ≤ 8 + 100000000), yet the sweep at that tick removes it, because its
owner entity 1 is expired. -/
theorem tracer_liveness_counterexample :
    (⟨2, some 1, some ⟨8, 100000000⟩⟩ : EntityRec) ∈ nestedTracerWorld.entities
    ∧ 10 ≤ 8 + 100000000
    ∧ ∀ e ∈ (runSweeps nestedTracerWorld [10]).entities, e.id ≠ 2 := by decide

/-- C8 (amended): a tracer entity spawned at clock t0 that is a root
entity (owned by no other entity, with a unique id in the store) is still
present after any run of sweeps whose clock readings all satisfy
t ≤ t0 + lifetime, and is absent after any run of sweeps in which some
reading satisfies t0 + lifetime < t. -/
theorem tracer_liveness (w : World) (r : EntityRec) (d : DespawnAfter)
    (ts : List ℕ) (hr : r ∈ w.entities) (hd : r.despawn_after = some d)
    (hroot : r.parent = none)
    (huniq : ∀ e ∈ w.entities, e.id = r.id → e = r) :
    ((∀ t ∈ ts, t ≤ d.spawned_at + d.lifetime) → r ∈ (runSweeps w ts).entities)
    ∧ ((∃ t ∈ ts, d.spawned_at + d.lifetime < t) → r ∉ (runSweeps w ts).entities) :=
  ⟨fun hts => mem_runSweeps_of_le hd hroot ts w hr huniq hts,
   fun h => not_mem_runSweeps_of_expired hd ts w h⟩

/-- Concrete store for the C8 witness: one root tracer entity with the
100 ms lifetime owning a markerless child. -/
def soloTracerWorld : World :=
  ⟨[⟨1, none, some ⟨0, 100000000⟩⟩, ⟨2, some 1, none⟩]⟩

/-- C8 witness: the root tracer of soloTracerWorld survives sweeps at
clocks 50 and 100000000 (both inside the window) and is gone after a run
whose last sweep happens at clock 100000001, one past the deadline. -/
theorem tracer_liveness_witness :
    ((⟨1, none, some ⟨0, 100000000⟩⟩ : EntityRec) ∈ soloTracerWorld.entities
      ∧ (∀ t ∈ [50, 100000000], t ≤ 0 + 100000000))
    ∧ (⟨1, none, some ⟨0, 100000000⟩⟩ : EntityRec)
        ∈ (runSweeps soloTracerWorld [50, 100000000]).entities
    ∧ (⟨1, none, some ⟨0, 100000000⟩⟩ : EntityRec)
        ∉ (runSweeps soloTracerWorld [50, 100000001]).entities :=
  ⟨⟨by decide, by decide⟩,
   (tracer_liveness soloTracerWorld ⟨1, none, some ⟨0, 100000000⟩⟩ ⟨0, 100000000⟩
      [50, 100000000] (by decide) rfl rfl (by decide)).1 (by decide),
   (tracer_liveness soloTracerWorld ⟨1, none, some ⟨0, 100000000⟩⟩ ⟨0, 100000000⟩
      [50, 100000001] (by decide) rfl rfl (by decide)).2
     ⟨100000001, by decide, by decide⟩⟩

/-! ## Exact-real model of glam vectors and quaternions -/

/-- Vec3 (glam), with exact real coordinates. -/
@[ext]
structure Vec3 where
  x : ℝ
  y : ℝ
  z : ℝ

/-- Componentwise addition. -/
def Vec3.add (a b : Vec3) : Vec3 := ⟨a.x + b.x, a.y + b.y, a.z + b.z⟩

instance : Add Vec3 := ⟨Vec3.add⟩

/-- Componentwise subtraction. -/
def Vec3.sub (a b : Vec3) : Vec3 := ⟨a.x - b.x, a.y - b.y, a.z - b.z⟩

instance : Sub Vec3 := ⟨Vec3.sub⟩

/-- Scalar multiplication. -/
def Vec3.smul (r : ℝ) (v : Vec3) : Vec3 := ⟨r * v.x, r * v.y, r * v.z⟩

instance : SMul ℝ Vec3 := ⟨Vec3.smul⟩

/-- Division of a vector by a scalar. -/
noncomputable def Vec3.divScalar (v : Vec3) (r : ℝ) : Vec3 := ⟨v.x / r, v.y / r, v.z / r⟩

/-- Dot product. -/
def Vec3.dot (a b : Vec3) : ℝ := a.x * b.x + a.y * b.y + a.z * b.z

/-- Cross product. -/
def Vec3.cross (a b : Vec3) : Vec3 :=
  ⟨a.y * b.z - a.z * b.y, a.z * b.x - a.x * b.z, a.x * b.y - a.y * b.x⟩

/-- Vec3::length. -/
noncomputable def Vec3.length (v : Vec3) : ℝ := Real.sqrt (v.dot v)

/-- Vec3::normalize: self * (1 / length).  At the zero vector the source
computes with non-finite floats instead of panicking; the exact model
divides by zero, yielding the junk value 0. -/
noncomputable def Vec3.normalize (v : Vec3) : Vec3 := (1 / v.length) • v

/-- Constant Vec3::Y. -/
def Vec3.Y : Vec3 := ⟨0, 1, 0⟩

/-- Constant Vec3::NEG_Z. -/
def Vec3.NEG_Z : Vec3 := ⟨0, 0, -1⟩

/-- Constant Vec3::ZERO. -/
def Vec3.ZERO : Vec3 := ⟨0, 0, 0⟩

/-- Signum as f32::signum computes it on the inputs that occur here
(non-NaN, and +0 for the zero case): -1 on negatives, otherwise 1. -/
noncomputable def signumf (r : ℝ) : ℝ := if r < 0 then -1 else 1

/-- Vec3::any_orthonormal_vector (the Pixar orthonormal-basis formula used
by glam); meaningful for unit input. -/
noncomputable def Vec3.anyOrthonormalVector (v : Vec3) : Vec3 :=
  ⟨v.x * v.y * (-1 / (signumf v.z + v.z)),
   signumf v.z + v.y * v.y * (-1 / (signumf v.z + v.z)),
   -v.y⟩

/-- Quat (glam), with exact real components. -/
@[ext]
structure Quat where
  x : ℝ
  y : ℝ
  z : ℝ
  w : ℝ

/-- Constant Quat::IDENTITY. -/
def Quat.IDENTITY : Quat := ⟨0, 0, 0, 1⟩

/-- Vector part of a quaternion. -/
def Quat.xyz (q : Quat) : Vec3 := ⟨q.x, q.y, q.z⟩

/-- Quat::length_squared. -/
def Quat.lengthSquared (q : Quat) : ℝ := q.x * q.x + q.y * q.y + q.z * q.z + q.w * q.w

/-- Quat::length. -/
noncomputable def Quat.length (q : Quat) : ℝ := Real.sqrt q.lengthSquared

/-- Scaling of a quaternion by a scalar. -/
def Quat.scale (r : ℝ) (q : Quat) : Quat := ⟨r * q.x, r * q.y, r * q.z, r * q.w⟩

/-- Quat::normalize: self * (1 / length). -/
noncomputable def Quat.normalize (q : Quat) : Quat := Quat.scale (1 / q.length) q

/-- Quat::from_axis_angle: (axis * sin(angle/2), cos(angle/2)). -/
noncomputable def Quat.fromAxisAngle (axis : Vec3) (angle : ℝ) : Quat :=
  ⟨axis.x * Real.sin (angle * 0.5), axis.y * Real.sin (angle * 0.5),
   axis.z * Real.sin (angle * 0.5), Real.cos (angle * 0.5)⟩

/-- Quat::from_rotation_arc.  The float code compares the dot product
against 1 - 2 EPSILON and -(1 - 2 EPSILON); the exact model takes the
EPSILON to 0, so the 0-degree branch fires at dot >= 1 and the 180-degree
branch at dot <= -1 (for unit inputs those are the exact singularities). -/
noncomputable def Quat.fromRotationArc (f t : Vec3) : Quat :=
  if 1 ≤ f.dot t then Quat.IDENTITY
  else if f.dot t ≤ -1 then Quat.fromAxisAngle (Vec3.anyOrthonormalVector f) Real.pi
  else Quat.normalize ⟨(f.cross t).x, (f.cross t).y, (f.cross t).z, 1 + f.dot t⟩

/-- Quat::mul_vec3 (the rotation action, for a unit quaternion):
rhs * (w * w - b.dot b) + b * (rhs.dot b * 2) + b.cross rhs * (w * 2). -/
def Quat.mulVec3 (q : Quat) (v : Vec3) : Vec3 :=
  ((q.w * q.w - q.xyz.dot q.xyz) • v) + ((v.dot q.xyz * 2) • q.xyz)
  + ((q.w * 2) • (q.xyz.cross v))

/-! ## Component lemmas and unit-vector facts -/

@[simp]
theorem Vec3.add_x (a b : Vec3) : (a + b).x = a.x + b.x := rfl

@[simp]
theorem Vec3.add_y (a b : Vec3) : (a + b).y = a.y + b.y := rfl

@[simp]
theorem Vec3.add_z (a b : Vec3) : (a + b).z = a.z + b.z := rfl

@[simp]
theorem Vec3.sub_x (a b : Vec3) : (a - b).x = a.x - b.x := rfl

@[simp]
theorem Vec3.sub_y (a b : Vec3) : (a - b).y = a.y - b.y := rfl

@[simp]
theorem Vec3.sub_z (a b : Vec3) : (a - b).z = a.z - b.z := rfl

@[simp]
theorem Vec3.smul_x (r : ℝ) (v : Vec3) : (r • v).x = r * v.x := rfl

@[simp]
theorem Vec3.smul_y (r : ℝ) (v : Vec3) : (r • v).y = r * v.y := rfl

@[simp]
theorem Vec3.smul_z (r : ℝ) (v : Vec3) : (r • v).z = r * v.z := rfl

theorem Vec3.dot_self_nonneg (v : Vec3) : 0 ≤ v.dot v := by
  simp only [Vec3.dot]
  nlinarith [mul_self_nonneg v.x, mul_self_nonneg v.y, mul_self_nonneg v.z]

theorem Vec3.dot_self_pos {v : Vec3} (h : v ≠ Vec3.ZERO) : 0 < v.dot v := by
  rcases lt_or_eq_of_le (Vec3.dot_self_nonneg v) with hlt | heq
  · exact hlt
  exfalso
  apply h
  simp only [Vec3.dot] at heq
  have hx : v.x = 0 := by
    have h1 : v.x * v.x ≤ 0 := by
      nlinarith [mul_self_nonneg v.y, mul_self_nonneg v.z]
    exact mul_self_eq_zero.mp (le_antisymm h1 (mul_self_nonneg v.x))
  have hy : v.y = 0 := by
    have h1 : v.y * v.y ≤ 0 := by
      nlinarith [mul_self_nonneg v.x, mul_self_nonneg v.z]
    exact mul_self_eq_zero.mp (le_antisymm h1 (mul_self_nonneg v.y))
  have hz : v.z = 0 := by
    have h1 : v.z * v.z ≤ 0 := by
      nlinarith [mul_self_nonneg v.x, mul_self_nonneg v.y]
    exact mul_self_eq_zero.mp (le_antisymm h1 (mul_self_nonneg v.z))
  ext <;> simp [Vec3.ZERO, hx, hy, hz]

theorem Vec3.length_mul_self (v : Vec3) :
    v.length * v.length = v.dot v :=
  Real.mul_self_sqrt (Vec3.dot_self_nonneg v)

theorem Vec3.length_ne_zero {v : Vec3} (h : v ≠ Vec3.ZERO) : v.length ≠ 0 := by
  intro h0
  have := Vec3.length_mul_self v
  rw [h0, mul_zero] at this
  exact absurd this.symm (ne_of_gt (Vec3.dot_self_pos h))

theorem Vec3.normalize_unit {v : Vec3} (h : v ≠ Vec3.ZERO) :
    v.normalize.dot v.normalize = 1 := by
  have hL := Vec3.length_mul_self v
  have hne := Vec3.length_ne_zero h
  simp only [Vec3.normalize, Vec3.dot, Vec3.smul_x, Vec3.smul_y, Vec3.smul_z]
  simp only [Vec3.dot] at hL
  field_simp
  linear_combination (-1 : ℝ) * hL

theorem eq_of_unit_dot_ge {f t : Vec3} (hf : f.dot f = 1) (ht : t.dot t = 1)
    (h : 1 ≤ f.dot t) : t = f := by
  simp only [Vec3.dot] at hf ht h
  have hx : t.x = f.x := by
    have h1 : (f.x - t.x) * (f.x - t.x) ≤ 0 := by
      nlinarith [mul_self_nonneg (f.y - t.y), mul_self_nonneg (f.z - t.z)]
    have := mul_self_eq_zero.mp (le_antisymm h1 (mul_self_nonneg _))
    linarith [sub_eq_zero.mp this]
  have hy : t.y = f.y := by
    have h1 : (f.y - t.y) * (f.y - t.y) ≤ 0 := by
      nlinarith [mul_self_nonneg (f.x - t.x), mul_self_nonneg (f.z - t.z)]
    have := mul_self_eq_zero.mp (le_antisymm h1 (mul_self_nonneg _))
    linarith [sub_eq_zero.mp this]
  have hz : t.z = f.z := by
    have h1 : (f.z - t.z) * (f.z - t.z) ≤ 0 := by
      nlinarith [mul_self_nonneg (f.x - t.x), mul_self_nonneg (f.y - t.y)]
    have := mul_self_eq_zero.mp (le_antisymm h1 (mul_self_nonneg _))
    linarith [sub_eq_zero.mp this]
  ext <;> assumption

theorem neg_of_unit_dot_le {f t : Vec3} (hf : f.dot f = 1) (ht : t.dot t = 1)
    (h : f.dot t ≤ -1) : t = ⟨-f.x, -f.y, -f.z⟩ := by
  simp only [Vec3.dot] at hf ht h
  have hx : t.x = -f.x := by
    have h1 : (f.x + t.x) * (f.x + t.x) ≤ 0 := by
      nlinarith [mul_self_nonneg (f.y + t.y), mul_self_nonneg (f.z + t.z)]
    have := mul_self_eq_zero.mp (le_antisymm h1 (mul_self_nonneg _))
    linarith
  have hy : t.y = -f.y := by
    have h1 : (f.y + t.y) * (f.y + t.y) ≤ 0 := by
      nlinarith [mul_self_nonneg (f.x + t.x), mul_self_nonneg (f.z + t.z)]
    have := mul_self_eq_zero.mp (le_antisymm h1 (mul_self_nonneg _))
    linarith
  have hz : t.z = -f.z := by
    have h1 : (f.z + t.z) * (f.z + t.z) ≤ 0 := by
      nlinarith [mul_self_nonneg (f.x + t.x), mul_self_nonneg (f.y + t.y)]
    have := mul_self_eq_zero.mp (le_antisymm h1 (mul_self_nonneg _))
    linarith
  ext <;> assumption

theorem Quat.mulVec3_scale (r : ℝ) (q : Quat) (v : Vec3) :
    (Quat.scale r q).mulVec3 v = (r * r) • q.mulVec3 v := by
  ext <;>
    simp [Quat.mulVec3, Quat.scale, Quat.xyz, Vec3.dot, Vec3.cross] <;> ring

theorem anyOrthonormal_dot {v : Vec3} (hv : v.dot v = 1) :
    (Vec3.anyOrthonormalVector v).dot v = 0 := by
  simp only [Vec3.dot] at hv
  by_cases hz : v.z < 0
  · have hne : signumf v.z + v.z ≠ 0 := by
      simp only [signumf, if_pos hz]
      linarith
    simp only [Vec3.anyOrthonormalVector, Vec3.dot, signumf, if_pos hz] at hne ⊢
    field_simp
    linear_combination (v.y * (1 - v.z)) * hv
  · have hne : signumf v.z + v.z ≠ 0 := by
      simp only [signumf, if_neg hz]
      push_neg at hz
      linarith
    simp only [Vec3.anyOrthonormalVector, Vec3.dot, signumf, if_neg hz] at hne ⊢
    field_simp
    linear_combination (-(v.y * (1 + v.z))) * hv

theorem anyOrthonormal_unit {v : Vec3} (hv : v.dot v = 1) :
    (Vec3.anyOrthonormalVector v).dot (Vec3.anyOrthonormalVector v) = 1 := by
  simp only [Vec3.dot] at hv
  by_cases hz : v.z < 0
  · have hne : signumf v.z + v.z ≠ 0 := by
      simp only [signumf, if_pos hz]
      linarith
    simp only [Vec3.anyOrthonormalVector, Vec3.dot, signumf, if_pos hz] at hne ⊢
    field_simp
    linear_combination (v.y * v.y) * hv
  · have hne : signumf v.z + v.z ≠ 0 := by
      simp only [signumf, if_neg hz]
      push_neg at hz
      linarith
    simp only [Vec3.anyOrthonormalVector, Vec3.dot, signumf, if_neg hz] at hne ⊢
    field_simp
    linear_combination (v.y * v.y) * hv

theorem mulVec3_identity (v : Vec3) : Quat.IDENTITY.mulVec3 v = v := by
  ext <;> simp [Quat.mulVec3, Quat.IDENTITY, Quat.xyz, Vec3.dot, Vec3.cross]

/-- Core geometric fact about glam: for unit vectors f and t, the
quaternion produced by Quat::from_rotation_arc f t rotates f onto t (in
all three branches of the implementation). -/
theorem fromRotationArc_rotates {f t : Vec3} (hf : f.dot f = 1) (ht : t.dot t = 1) :
    (Quat.fromRotationArc f t).mulVec3 f = t := by
  unfold Quat.fromRotationArc
  by_cases h1 : 1 ≤ f.dot t
  · rw [if_pos h1, eq_of_unit_dot_ge hf ht h1]
    exact mulVec3_identity f
  rw [if_neg h1]
  by_cases h2 : f.dot t ≤ -1
  · rw [if_pos h2, neg_of_unit_dot_le hf ht h2]
    have hsin : Real.sin (Real.pi * 0.5) = 1 := by
      rw [show Real.pi * (0.5 : ℝ) = Real.pi / 2 by ring]
      exact Real.sin_pi_div_two
    have hcos : Real.cos (Real.pi * 0.5) = 0 := by
      rw [show Real.pi * (0.5 : ℝ) = Real.pi / 2 by ring]
      exact Real.cos_pi_div_two
    have hdot0 := anyOrthonormal_dot hf
    have hunit := anyOrthonormal_unit hf
    simp only [Vec3.dot] at hdot0 hunit
    ext <;>
      simp only [Quat.fromAxisAngle, hsin, hcos, Quat.mulVec3, Quat.xyz,
        Vec3.dot, Vec3.cross, Vec3.add_x, Vec3.add_y, Vec3.add_z,
        Vec3.smul_x, Vec3.smul_y, Vec3.smul_z, mul_one, mul_zero, zero_mul]
    · linear_combination (-f.x) * hunit + (2 * (Vec3.anyOrthonormalVector f).x) * hdot0
    · linear_combination (-f.y) * hunit + (2 * (Vec3.anyOrthonormalVector f).y) * hdot0
    · linear_combination (-f.z) * hunit + (2 * (Vec3.anyOrthonormalVector f).z) * hdot0
  · rw [if_neg h2]
    push_neg at h1 h2
    have hN : (Quat.mk (f.cross t).x (f.cross t).y (f.cross t).z
        (1 + f.dot t)).lengthSquared = 2 + 2 * f.dot t := by
      simp only [Quat.lengthSquared, Vec3.cross, Vec3.dot] at *
      linear_combination (t.x * t.x + t.y * t.y + t.z * t.z) * hf + ht
    have hNpos : (0 : ℝ) < (Quat.mk (f.cross t).x (f.cross t).y (f.cross t).z
        (1 + f.dot t)).lengthSquared := by
      rw [hN]; linarith
    have hkey : (Quat.mk (f.cross t).x (f.cross t).y (f.cross t).z
        (1 + f.dot t)).mulVec3 f = (2 + 2 * f.dot t) • t := by
      ext <;>
        simp only [Quat.mulVec3, Quat.xyz, Vec3.dot, Vec3.cross, Vec3.add_x,
          Vec3.add_y, Vec3.add_z, Vec3.smul_x, Vec3.smul_y, Vec3.smul_z]
      · simp only [Vec3.dot] at *
        linear_combination
          ((2 + 2 * (f.x * t.x + f.y * t.y + f.z * t.z)) * t.x
            - (t.x * t.x + t.y * t.y + t.z * t.z) * f.x) * hf + (-f.x) * ht
      · simp only [Vec3.dot] at *
        linear_combination
          ((2 + 2 * (f.x * t.x + f.y * t.y + f.z * t.z)) * t.y
            - (t.x * t.x + t.y * t.y + t.z * t.z) * f.y) * hf + (-f.y) * ht
      · simp only [Vec3.dot] at *
        linear_combination
          ((2 + 2 * (f.x * t.x + f.y * t.y + f.z * t.z)) * t.z
            - (t.x * t.x + t.y * t.y + t.z * t.z) * f.z) * hf + (-f.z) * ht
    have hstep : (Quat.normalize (Quat.mk (f.cross t).x (f.cross t).y (f.cross t).z
        (1 + f.dot t))).mulVec3 f
        = ((1 / Real.sqrt (2 + 2 * f.dot t)) * (1 / Real.sqrt (2 + 2 * f.dot t)))
            • ((2 + 2 * f.dot t) • t) := by
      rw [Quat.normalize, Quat.mulVec3_scale, hkey, Quat.length, hN]
    rw [hstep]
    have hpos : (0 : ℝ) < 2 + 2 * f.dot t := by linarith
    have hs : Real.sqrt (2 + 2 * f.dot t) * Real.sqrt (2 + 2 * f.dot t)
        = 2 + 2 * f.dot t := Real.mul_self_sqrt hpos.le
    have hsne : Real.sqrt (2 + 2 * f.dot t) ≠ 0 := by
      have := Real.sqrt_pos.mpr hpos
      linarith
    ext <;> simp only [Vec3.smul_x, Vec3.smul_y, Vec3.smul_z] <;> field_simp

/-! ## Colors, transforms and meshes -/

/-- Srgba color (bevy::color), exact real channels. -/
structure Srgba where
  red : ℝ
  green : ℝ
  blue : ℝ
  alpha : ℝ

/-- LinearRgba color, exact real channels. -/
structure LinearRgba where
  red : ℝ
  green : ℝ
  blue : ℝ
  alpha : ℝ

/-- Constant css::WHITE. -/
def WHITE : Srgba := ⟨1, 1, 1, 1⟩

/-- Constant css::YELLOW. -/
def YELLOW : Srgba := ⟨1, 1, 0, 1⟩

/-- Srgba::gamma_function: the nonlinear-to-linear sRGB transfer function
applied per channel by the From Srgba for LinearRgba conversion. -/
noncomputable def gammaFunction (value : ℝ) : ℝ :=
  if value ≤ 0 then value
  else if value ≤ 0.04045 then value / 12.92
  else ((value + 0.055) / 1.055) ^ (2.4 : ℝ)

/-- From Srgba for LinearRgba (the .into() on the shader color fields). -/
noncomputable def Srgba.toLinear (c : Srgba) : LinearRgba :=
  ⟨gammaFunction c.red, gammaFunction c.green, gammaFunction c.blue, c.alpha⟩

/-- Color (bevy), restricted to the variant this module produces: the
From Srgba for Color conversion just wraps the sRGB value. -/
inductive Color where
  | srgba (c : Srgba) : Color

/-- From Srgba for Color (the .into() on the PointLight color field). -/
def Srgba.toColor (c : Srgba) : Color := Color.srgba c

/-- Transform (bevy), translation, rotation and scale. -/
structure Transform where
  translation : Vec3
  rotation : Quat
  scale : Vec3

/-- Transform::default(). -/
def Transform.DEFAULT : Transform := ⟨⟨0, 0, 0⟩, Quat.IDENTITY, ⟨1, 1, 1⟩⟩

/-- Transform::from_rotation. -/
def Transform.fromRotation (r : Quat) : Transform := ⟨⟨0, 0, 0⟩, r, ⟨1, 1, 1⟩⟩

/-- Cylinder primitive (bevy): Cylinder::new(radius, height) stores
half_height = height / 2. -/
structure Cylinder where
  radius : ℝ
  half_height : ℝ

/-- Cylinder::new. -/
noncomputable def Cylinder.new (radius height : ℝ) : Cylinder := ⟨radius, height / 2⟩

/-- Constant TRACER_RADIUS from the source. -/
def TRACER_RADIUS : ℝ := 0.05

/-! ## The Tracer component and its on_add hook -/

/-- Component Tracer; field endp models the source field named end (a
Lean keyword), the world-space terminus of the beam. -/
structure Tracer where
  endp : Vec3

/-- Material TracerShader: the five parameters handed to the beam
fragment shader. -/
structure TracerShader where
  tracer_start : LinearRgba
  tracer_end : LinearRgba
  time_spawned : ℝ
  time_alive : ℝ
  tracer_length : ℝ

/-- PointLight, restricted to the fields the source sets (the rest come
from ..default()). -/
structure PointLight where
  color : Color
  shadows_enabled : Bool
  intensity : ℝ

/-- The beam-visual child bundle: Mesh3d + MeshMaterial3d + Transform,
spawned under the host entity. -/
structure BeamChild where
  parent : ℕ
  mesh : Cylinder
  material : TracerShader
  transform : Transform

/-- The point-light child bundle. -/
structure LightChild where
  parent : ℕ
  light : PointLight
  transform : Transform

/-- The particle-burst child bundle (ParticleEffect with the muzzle-flash
effect handle). -/
structure ParticleChild where
  parent : ℕ
  effect : ℕ
  transform : Transform

/-- Everything the on_add hook of Tracer emits: the DespawnAfter inserted
on the host entity and the three child entities spawned under it. -/
structure SpawnResult where
  despawn_after : DespawnAfter
  beam : BeamChild
  light : LightChild
  particle : ParticleChild

/-- Owners of the children a spawn emits. -/
def SpawnResult.childParents (r : SpawnResult) : List ℕ :=
  [r.beam.parent, r.light.parent, r.particle.parent]

/-- Body of the on_add hook of Tracer after the component and resource
lookups have succeeded: current_time is Time::elapsed in nanoseconds,
tracer_start the host Transform translation, and muzzle_flash_handle the
handle held by the MuzzleFlashEffect resource. -/
noncomputable def spawnBundle (current_time : ℕ) (host : ℕ) (tracer_start : Vec3)
    (tracer : Tracer) (muzzle_flash_handle : ℕ) : SpawnResult :=
  let lifetime := durationFromMillis TRACER_DURATION_MILLIS
  let despawn_after : DespawnAfter := ⟨current_time, lifetime⟩
  let direction := tracer.endp - tracer_start
  let distance := direction.length
  let cylinder := Cylinder.new TRACER_RADIUS distance
  let tracer_material : TracerShader :=
    ⟨WHITE.toLinear, YELLOW.toLinear, durationAsSecsF32 current_time,
     durationAsSecsF32 lifetime, 0.3⟩
  let rotation := Quat.fromRotationArc Vec3.Y direction.normalize
  let transform0 := Transform.fromRotation rotation
  let transform : Transform :=
    { transform0 with translation := transform0.translation + direction.divScalar 2 }
  let particle_rotation := Quat.fromRotationArc Vec3.NEG_Z direction.normalize
  { despawn_after := despawn_after
    beam := ⟨host, cylinder, tracer_material, transform⟩
    light := ⟨host, ⟨YELLOW.toColor, true, 40000⟩, Transform.DEFAULT⟩
    particle := ⟨host, muzzle_flash_handle, Transform.fromRotation particle_rotation⟩ }

/-- The slice of the Bevy world the on_add hook reads.  The Tracer
component itself is guaranteed present (the hook fires on its insertion);
the host Transform and the MuzzleFlashEffect resource are looked up and
unwrapped, so they are optional here. -/
structure HookWorld where
  time_elapsed : ℕ
  tracer : Tracer
  transform : Option Transform
  muzzle_flash : Option ℕ

/-- The on_add hook of Tracer.  A none result models a panic of one of
the unwrap calls (missing host Transform or missing MuzzleFlashEffect
resource). -/
noncomputable def onAdd (w : HookWorld) (entity : ℕ) : Option SpawnResult :=
  match w.transform, w.muzzle_flash with
  | some tf, some handle =>
    some (spawnBundle w.time_elapsed entity tf.translation w.tracer handle)
  | _, _ => none

/-! ## Color evaluation lemmas -/

theorem gammaFunction_one : gammaFunction 1 = 1 := by
  rw [gammaFunction, if_neg (by norm_num), if_neg (by norm_num),
    show ((1 : ℝ) + 0.055) / 1.055 = 1 by norm_num, Real.one_rpow]

theorem gammaFunction_zero : gammaFunction 0 = 0 := by
  rw [gammaFunction, if_pos le_rfl]

theorem WHITE_toLinear : WHITE.toLinear = ⟨1, 1, 1, 1⟩ := by
  simp [Srgba.toLinear, WHITE, gammaFunction_one]

theorem YELLOW_toLinear : YELLOW.toLinear = ⟨1, 1, 0, 1⟩ := by
  simp [Srgba.toLinear, YELLOW, gammaFunction_one, gammaFunction_zero]

theorem sub_ne_zero_vec {a b : Vec3} (h : a ≠ b) : a - b ≠ Vec3.ZERO := by
  intro h0
  apply h
  have hx := congrArg Vec3.x h0
  have hy := congrArg Vec3.y h0
  have hz := congrArg Vec3.z h0
  simp only [Vec3.sub_x, Vec3.sub_y, Vec3.sub_z, Vec3.ZERO] at hx hy hz
  ext <;> linarith

/-! ## Claim theorems about the spawn hook -/

/-- C2: every attachment of a Tracer inserts exactly one DespawnAfter on
the host, with spawned_at the current clock time and lifetime the fixed
100 ms constant (100000000 ns), and spawns exactly three child entities,
each parented to the host. -/
theorem spawn_marker_and_children (ct host : ℕ) (o : Vec3) (tr : Tracer)
    (hfl : ℕ) :
    (spawnBundle ct host o tr hfl).despawn_after
        = ⟨ct, durationFromMillis TRACER_DURATION_MILLIS⟩
    ∧ durationFromMillis TRACER_DURATION_MILLIS = 100000000
    ∧ (spawnBundle ct host o tr hfl).childParents = [host, host, host]
    ∧ (spawnBundle ct host o tr hfl).childParents.length = 3 :=
  ⟨rfl, rfl, rfl, rfl⟩

/-- C5: the beam material carries exactly the five shader parameters, with
time_spawned the spawn clock time in seconds, time_alive the fixed 100 ms
duration in seconds (1/10), and length-fade factor 0.3 (3/10). -/
theorem spawn_material (ct host : ℕ) (o : Vec3) (tr : Tracer) (hfl : ℕ) :
    (spawnBundle ct host o tr hfl).beam.material
      = TracerShader.mk WHITE.toLinear YELLOW.toLinear (durationAsSecsF32 ct)
          (1 / 10) (3 / 10) := by
  show TracerShader.mk WHITE.toLinear YELLOW.toLinear (durationAsSecsF32 ct)
      (durationAsSecsF32 (durationFromMillis TRACER_DURATION_MILLIS)) 0.3 = _
  simp only [TracerShader.mk.injEq]
  refine ⟨trivial, trivial, trivial, ?_, by norm_num⟩
  simp only [durationAsSecsF32, durationFromMillis, TRACER_DURATION_MILLIS]
  norm_num

/-- C10: the effect colors and light parameters are fixed constants: the
beam material's start color is white (linear 1,1,1,1), its end color is
yellow (linear 1,1,0,1), and the flash point light is yellow with shadows
enabled and intensity 40000. -/
theorem spawn_colors (ct host : ℕ) (o : Vec3) (tr : Tracer) (hfl : ℕ) :
    (spawnBundle ct host o tr hfl).beam.material.tracer_start = LinearRgba.mk 1 1 1 1
    ∧ (spawnBundle ct host o tr hfl).beam.material.tracer_end = LinearRgba.mk 1 1 0 1
    ∧ (spawnBundle ct host o tr hfl).light.light
        = PointLight.mk (Color.srgba (Srgba.mk 1 1 0 1)) true 40000 :=
  ⟨WHITE_toLinear, YELLOW_toLinear, rfl⟩

/-- C9: the hook's unwrap calls panic exactly when a precondition is
missing: the spawn succeeds if and only if the host entity has a Transform
and the MuzzleFlashEffect resource (inserted by the startup system) is
present. -/
theorem hook_lookup_panics (w : HookWorld) (entity : ℕ) :
    (onAdd w entity).isSome = (w.transform.isSome && w.muzzle_flash.isSome) := by
  rcases w with ⟨time, tr, otf, ofl⟩
  cases otf <;> cases ofl <;> rfl

/-- C6: spawning a tracer whose end point coincides with the host position
(zero-length direction) still completes the hook: the computation is total
and produces a bundle, modelling the fact that glam's normalize of a zero
vector yields non-finite values rather than panicking. -/
theorem degenerate_spawn (time entity : ℕ) (tf : Transform) (hfl : ℕ)
    (tr : Tracer) (_heq : tr.endp = tf.translation) :
    (onAdd ⟨time, tr, some tf, some hfl⟩ entity).isSome = true := rfl

/-- C6 witness: the degenerate spawn at origin = end = (0,0,0)
completes. -/
theorem degenerate_spawn_witness :
    (Tracer.mk ⟨0, 0, 0⟩).endp = Transform.DEFAULT.translation
    ∧ (onAdd ⟨0, Tracer.mk ⟨0, 0, 0⟩, some Transform.DEFAULT, some 0⟩ 0).isSome
        = true :=
  ⟨rfl, degenerate_spawn 0 0 Transform.DEFAULT 0 (Tracer.mk ⟨0, 0, 0⟩) rfl⟩

theorem length_0_10_0 : (Vec3.mk 0 10 0).length = 10 := by
  rw [Vec3.length, show (Vec3.mk 0 10 0).dot (Vec3.mk 0 10 0) = 10 ^ 2 by
    norm_num [Vec3.dot], Real.sqrt_sq (by norm_num : (0 : ℝ) ≤ 10)]

/-- C3: for origin distinct from end, the beam visual is a cylinder of
radius TRACER_RADIUS whose height is the distance from origin to end, its
rotation maps Vec3::Y onto the normalized direction, and its translation
relative to the host is direction / 2; at origin (0,0,0), end (0,10,0)
the length is 10, the rotation is the identity quaternion and the offset
is (0,5,0). -/
theorem beam_geometry (ct host hfl : ℕ) (o : Vec3) (tr : Tracer)
    (hne : tr.endp ≠ o) :
    (spawnBundle ct host o tr hfl).beam.mesh
        = Cylinder.new TRACER_RADIUS ((tr.endp - o).length)
    ∧ ((spawnBundle ct host o tr hfl).beam.transform.rotation).mulVec3 Vec3.Y
        = (tr.endp - o).normalize
    ∧ (spawnBundle ct host o tr hfl).beam.transform.translation
        = (tr.endp - o).divScalar 2
    ∧ (o = ⟨0, 0, 0⟩ → tr.endp = ⟨0, 10, 0⟩ →
        (tr.endp - o).length = 10
        ∧ (spawnBundle ct host o tr hfl).beam.transform.rotation = Quat.IDENTITY
        ∧ (spawnBundle ct host o tr hfl).beam.transform.translation = ⟨0, 5, 0⟩) := by
  have hthm := fromRotationArc_rotates
    (f := Vec3.Y) (t := (tr.endp - o).normalize)
    (by norm_num [Vec3.dot, Vec3.Y]) (Vec3.normalize_unit (sub_ne_zero_vec hne))
  refine ⟨rfl, hthm, ?_, ?_⟩
  · show (Vec3.mk 0 0 0) + (tr.endp - o).divScalar 2 = (tr.endp - o).divScalar 2
    ext <;> simp [Vec3.divScalar]
  · intro ho he
    have hd : tr.endp - o = Vec3.mk 0 10 0 := by
      rw [he, ho]; ext <;> norm_num
    have hlen : (tr.endp - o).length = 10 := by rw [hd, length_0_10_0]
    have hnorm : (tr.endp - o).normalize = Vec3.mk 0 1 0 := by
      rw [Vec3.normalize, hlen, hd]; ext <;> norm_num
    refine ⟨hlen, ?_, ?_⟩
    · show Quat.fromRotationArc Vec3.Y ((tr.endp - o).normalize) = Quat.IDENTITY
      rw [hnorm, Quat.fromRotationArc,
        if_pos (by norm_num [Vec3.dot, Vec3.Y] : (1 : ℝ) ≤ Vec3.Y.dot (Vec3.mk 0 1 0))]
    · show (Vec3.mk 0 0 0) + (tr.endp - o).divScalar 2 = Vec3.mk 0 5 0
      rw [hd]; ext <;> norm_num [Vec3.divScalar]

/-- C3 witness: the spawn at origin (0,0,0), end (0,10,0) produces a
cylinder of radius 0.05 and height 10 with identity rotation and midpoint
offset (0,5,0). -/
theorem beam_geometry_witness :
    (Tracer.mk ⟨0, 10, 0⟩).endp ≠ (⟨0, 0, 0⟩ : Vec3)
    ∧ (spawnBundle 0 0 ⟨0, 0, 0⟩ (Tracer.mk ⟨0, 10, 0⟩) 0).beam.mesh
        = Cylinder.new TRACER_RADIUS 10
    ∧ (spawnBundle 0 0 ⟨0, 0, 0⟩ (Tracer.mk ⟨0, 10, 0⟩) 0).beam.transform.rotation
        = Quat.IDENTITY
    ∧ (spawnBundle 0 0 ⟨0, 0, 0⟩ (Tracer.mk ⟨0, 10, 0⟩) 0).beam.transform.translation
        = ⟨0, 5, 0⟩ := by
  have hne : (Tracer.mk (⟨0, 10, 0⟩ : Vec3)).endp ≠ (⟨0, 0, 0⟩ : Vec3) := by
    intro h
    have h10 := congrArg Vec3.y h
    norm_num at h10
  have h := beam_geometry 0 0 0 ⟨0, 0, 0⟩ (Tracer.mk ⟨0, 10, 0⟩) hne
  have hs := h.2.2.2 rfl rfl
  refine ⟨hne, ?_, hs.2.1, hs.2.2⟩
  rw [h.1, hs.1]

/-- C4: for origin distinct from end, the particle burst child's rotation
maps the canonical forward axis Vec3::NEG_Z onto the normalized
direction. -/
theorem particle_orientation (ct host hfl : ℕ) (o : Vec3) (tr : Tracer)
    (hne : tr.endp ≠ o) :
    ((spawnBundle ct host o tr hfl).particle.transform.rotation).mulVec3 Vec3.NEG_Z
      = (tr.endp - o).normalize := by
  show (Quat.fromRotationArc Vec3.NEG_Z ((tr.endp - o).normalize)).mulVec3 Vec3.NEG_Z
      = (tr.endp - o).normalize
  exact fromRotationArc_rotates (by norm_num [Vec3.dot, Vec3.NEG_Z])
    (Vec3.normalize_unit (sub_ne_zero_vec hne))

/-- C4 witness: at origin (0,0,0), end (3,4,0) the particle rotation sends
NEG_Z to the normalized direction. -/
theorem particle_orientation_witness :
    (Tracer.mk ⟨3, 4, 0⟩).endp ≠ (⟨0, 0, 0⟩ : Vec3)
    ∧ ((spawnBundle 0 0 ⟨0, 0, 0⟩ (Tracer.mk ⟨3, 4, 0⟩) 0).particle.transform.rotation).mulVec3
          Vec3.NEG_Z
        = ((Tracer.mk ⟨3, 4, 0⟩).endp - (⟨0, 0, 0⟩ : Vec3)).normalize := by
  have hne : (Tracer.mk (⟨3, 4, 0⟩ : Vec3)).endp ≠ (⟨0, 0, 0⟩ : Vec3) := by
    intro h
    have h3 := congrArg Vec3.x h
    norm_num at h3
  exact ⟨hne, particle_orientation 0 0 0 ⟨0, 0, 0⟩ (Tracer.mk ⟨3, 4, 0⟩) hne⟩
